import Mathlib

/-!
# Soundboard firmware: formal model and verification

A shallow embedding of the soundboard firmware core (player, audio
provider/cache, action mapper, input scanner) together with theorems
checking the natural-language specification against the code.

Machine integers are modelled as `Nat`/`Int` with explicit wrapping where
the C code performs a narrowing cast.  Fallible C functions returning
`esp_err_t` are modelled with an explicit error-code type.  Hardware and
RTOS interaction (GPIO reads, `fopen`/`fread` outcomes, `heap_caps_malloc`
success, `i2s_channel_write` outcomes) are passed in as explicit inputs,
so every definition is executable.
-/

/-- Error-code taxonomy, mirroring the `esp_err_t` values used by the core. -/
inductive EspErr where
  | ok
  | fail
  | invalidArg
  | invalidState
  | noMem
  | notFound
  | notSupported
  | timeout
  deriving DecidableEq, Repr

/-! ## Player: software volume (player.c) -/

/-- `VOLUME_LEVELS` from player.c. -/
def VOLUME_LEVELS : Nat := 32

/-- `VOLUME_FACTOR_UNITY` from player.c: 65536 = 0 dB unity gain. -/
def VOLUME_FACTOR_UNITY : Nat := 65536

/-- The 32-entry logarithmic volume lookup table from player.c. -/
def volume_table : List Nat :=
  [    0,    82,   102,   128,   160,   200,   250,   312,
     390,   487,   608,   760,   950,  1187,  1484,  1854,
    2317,  2895,  3618,  4521,  5649,  7059,  8821, 11023,
   13774, 17212, 21508, 26877, 33586, 41969, 52445, 65536]

/-- Narrowing cast to `int16_t` (two's-complement wrap). -/
def toInt16 (x : Int) : Int := (x + 32768) % 65536 - 32768

/-- `apply_software_volume` from player.c.

Factor at or above unity is a no-op; factor 0 zero-fills the buffer
(`memset`); otherwise each sample is scaled by `(sample * factor) >> 16`
(arithmetic shift, i.e. floor division by 2^16) and narrowed to `int16_t`. -/
def apply_software_volume (buffer : List Int) (factor : Nat) : List Int :=
  if factor ≥ VOLUME_FACTOR_UNITY then
    buffer
  else if factor = 0 then
    buffer.map (fun _ => 0)
  else
    buffer.map (fun s => toInt16 ((s * (factor : Int)).fdiv 65536))

/-! ## Input scanner: encoder quadrature decoding (input_scanner.c) -/

/-- Unified input event type from input_scanner.h. -/
inductive InputEventType where
  | buttonPress
  | buttonLongPress
  | buttonRelease
  | encoderRotateCW
  | encoderRotateCCW
  deriving DecidableEq, Repr

/-- `ENCODER_STEPS_PER_DETENT` from input_scanner.c. -/
def ENCODER_STEPS_PER_DETENT : Int := 4

/-- The 16-entry Gray-code transition table inside `encoder_decode_direction`:
indexed by `(prev_state << 2) | new_state`; +1 is documented as CW,
-1 as CCW, 0 as invalid/no change. -/
def transition_table : List Int :=
  [0, 1, -1, 0, -1, 0, 0, 1, 1, 0, 0, -1, 0, -1, 1, 0]

/-- `encoder_decode_direction` from input_scanner.c. -/
def encoder_decode_direction (prev_state new_state : Nat) : Int :=
  transition_table.getD (prev_state * 4 + new_state) 0

/-- Narrowing cast to `int8_t` (two's-complement wrap), used for the
`(int8_t)(step_counter + direction)` cast. -/
def toInt8 (x : Int) : Int := (x + 128) % 256 - 128

/-- Encoder quadrature state (`encoder_state_info_t`): last observed pin
levels, bounded step accumulator, last valid transition timestamp and the
configured rotation debounce threshold (microseconds). -/
structure EncoderState where
  last_clk : Nat
  last_dt : Nat
  step_counter : Int
  last_transition_us : Int
  debounce_us : Int
  deriving DecidableEq, Repr

/-- `poll_encoder_quadrature` from input_scanner.c, one polling step.

Inputs are the sampled CLK/DT pin levels and the current time; output is
the updated encoder state and the list of emitted rotation events (the
callback invocations). -/
def poll_encoder_quadrature (enc : EncoderState) (clk dt : Nat) (now : Int) :
    EncoderState × List InputEventType :=
  if clk ≠ enc.last_clk ∨ dt ≠ enc.last_dt then
    let prev_state := enc.last_clk * 2 + enc.last_dt
    let new_state := clk * 2 + dt
    let direction := encoder_decode_direction prev_state new_state
    if direction ≠ 0 then
      if now - enc.last_transition_us ≥ enc.debounce_us then
        let counter := toInt8 (enc.step_counter + direction)
        if counter ≥ ENCODER_STEPS_PER_DETENT then
          ({ enc with last_clk := clk, last_dt := dt,
                      step_counter := 0, last_transition_us := now },
           [.encoderRotateCCW])
        else if counter ≤ -ENCODER_STEPS_PER_DETENT then
          ({ enc with last_clk := clk, last_dt := dt,
                      step_counter := 0, last_transition_us := now },
           [.encoderRotateCW])
        else
          ({ enc with last_clk := clk, last_dt := dt,
                      step_counter := counter, last_transition_us := now }, [])
      else
        ({ enc with last_clk := clk, last_dt := dt }, [])
    else
      ({ enc with last_clk := clk, last_dt := dt }, [])
  else
    ({ enc with last_clk := clk, last_dt := dt }, [])

/-- Run `poll_encoder_quadrature` over a sequence of samples
`(clk, dt, now)`, collecting all emitted events. -/
def poll_encoder_run (enc : EncoderState) :
    List (Nat × Nat × Int) → EncoderState × List InputEventType
  | [] => (enc, [])
  | (clk, dt, now) :: rest =>
      let r1 := poll_encoder_quadrature enc clk dt now
      let r2 := poll_encoder_run r1.1 rest
      (r2.1, r1.2 ++ r2.2)

/-- Encoder state as initialised by `input_scanner_init` with both pins
initially low and a 1 ms rotation debounce. -/
def encInit : EncoderState :=
  { last_clk := 0, last_dt := 0, step_counter := 0,
    last_transition_us := 0, debounce_us := 1000 }

/-- The four clockwise Gray-code transitions 00 → 01 → 11 → 10 → 00,
sampled 2 ms apart (well beyond the 1 ms debounce).  Samples are
`(clk, dt, now)` with the 2-bit phase being `(clk << 1) | dt`. -/
def cwDetentSamples : List (Nat × Nat × Int) :=
  [(0, 1, 2000), (1, 1, 4000), (1, 0, 6000), (0, 0, 8000)]

/-- The four counter-clockwise Gray-code transitions
00 → 10 → 11 → 01 → 00, sampled 2 ms apart. -/
def ccwDetentSamples : List (Nat × Nat × Int) :=
  [(1, 0, 2000), (1, 1, 4000), (0, 1, 6000), (0, 0, 8000)]

/-- Two clockwise steps, one invalid transition (11 → 00, both pins
flip), then two more clockwise steps completing the detent. -/
def cwDetentWithGlitchSamples : List (Nat × Nat × Int) :=
  [(0, 1, 2000), (1, 1, 4000), (0, 0, 6000), (0, 1, 8000), (1, 1, 10000)]

/-! ## Input scanner: button FSM (input_scanner.c) -/

/-- `button_state_t` from input_scanner.c. -/
inductive ButtonFsmPhase where
  | idle
  | debouncePress
  | pressedStable
  | debounceRelease
  deriving DecidableEq, Repr

/-- `button_state_info_t` from input_scanner.c: FSM phase, timestamps,
long-press latch, and the per-button timing configuration (microseconds).
The emitted events take the place of the callback invocations. -/
structure ButtonStateInfo where
  state : ButtonFsmPhase
  state_change_time_us : Int
  press_start_time_us : Int
  long_press_triggered : Bool
  debounce_press_us : Int
  debounce_release_us : Int
  long_press_us : Int
  deriving DecidableEq, Repr

/-- `button_fsm_update` from input_scanner.c, one sampling step. -/
def button_fsm_update (btn : ButtonStateInfo) (level : Bool) (now : Int) :
    ButtonStateInfo × List InputEventType :=
  match btn.state with
  | .idle =>
      if level then
        ({ btn with state := .debouncePress, state_change_time_us := now }, [])
      else (btn, [])
  | .debouncePress =>
      if ¬level then
        ({ btn with state := .idle }, [])
      else if now - btn.state_change_time_us ≥ btn.debounce_press_us then
        ({ btn with state := .pressedStable, press_start_time_us := now,
                    long_press_triggered := false }, [.buttonPress])
      else (btn, [])
  | .pressedStable =>
      if ¬level then
        ({ btn with state := .debounceRelease, state_change_time_us := now }, [])
      else if ¬btn.long_press_triggered ∧ now - btn.press_start_time_us ≥ btn.long_press_us then
        ({ btn with long_press_triggered := true }, [.buttonLongPress])
      else (btn, [])
  | .debounceRelease =>
      if level then
        ({ btn with state := .pressedStable }, [])
      else if now - btn.state_change_time_us ≥ btn.debounce_release_us then
        ({ btn with state := .idle }, [.buttonRelease])
      else (btn, [])

/-- Run `button_fsm_update` over a sequence of `(level, now)` samples,
collecting all emitted events. -/
def button_fsm_run (btn : ButtonStateInfo) :
    List (Bool × Int) → ButtonStateInfo × List InputEventType
  | [] => (btn, [])
  | (level, now) :: rest =>
      let r1 := button_fsm_update btn level now
      let r2 := button_fsm_run r1.1 rest
      (r2.1, r1.2 ++ r2.2)

/-- `init_button_state` from input_scanner.c: idle, zeroed timestamps, with
the given press-debounce, release-debounce and long-press thresholds. -/
def init_button_state (dp dr lp : Int) : ButtonStateInfo :=
  { state := .idle, state_change_time_us := 0, press_start_time_us := 0,
    long_press_triggered := false, debounce_press_us := dp,
    debounce_release_us := dr, long_press_us := lp }

theorem button_fsm_run_append (btn : ButtonStateInfo) (l1 l2 : List (Bool × Int)) :
    button_fsm_run btn (l1 ++ l2) =
      ((button_fsm_run (button_fsm_run btn l1).1 l2).1,
       (button_fsm_run btn l1).2 ++ (button_fsm_run (button_fsm_run btn l1).1 l2).2) := by
  induction l1 generalizing btn with
  | nil => simp [button_fsm_run]
  | cons s rest ih =>
      obtain ⟨p, n⟩ := s
      simp [button_fsm_run, ih]

/-- While the pressed level persists but the press-debounce threshold has
not elapsed, the FSM stays in DebouncePress and emits nothing. -/
theorem debounce_hold_no_events (btn : ButtonStateInfo)
    (hst : btn.state = .debouncePress) :
    ∀ samples : List (Bool × Int),
      (∀ s ∈ samples, s.1 = true ∧ s.2 - btn.state_change_time_us < btn.debounce_press_us) →
      button_fsm_run btn samples = (btn, []) := by
  intro samples
  induction samples with
  | nil => intro _; rfl
  | cons s rest ih =>
      intro hall
      obtain ⟨p, now⟩ := s
      have hp : p = true := (hall (p, now) (List.mem_cons_self _ _)).1
      have hlt : now - btn.state_change_time_us < btn.debounce_press_us :=
        (hall (p, now) (List.mem_cons_self _ _)).2
      subst hp
      have hcond : ¬ (now - btn.state_change_time_us ≥ btn.debounce_press_us) :=
        not_le.mpr hlt
      have hstep : button_fsm_update btn true now = (btn, []) := by
        unfold button_fsm_update
        rw [hst]
        simp [hcond]
      have hrest := ih (fun s hs => hall s (List.mem_cons_of_mem _ hs))
      simp [button_fsm_run, hstep, hrest]

/-- Once the FSM is in the stable-pressed phase, further pressed samples
never emit another Press event (only, possibly, one LongPress). -/
theorem pressed_hold_no_press :
    ∀ (samples : List (Bool × Int)) (btn : ButtonStateInfo),
      btn.state = .pressedStable →
      (∀ s ∈ samples, s.1 = true) →
      (button_fsm_run btn samples).2.count InputEventType.buttonPress = 0 := by
  intro samples
  induction samples with
  | nil => intro btn _ _; rfl
  | cons s rest ih =>
      intro btn hst hall
      obtain ⟨p, now⟩ := s
      have hp : p = true := hall (p, now) (List.mem_cons_self _ _)
      subst hp
      have hrestall : ∀ s ∈ rest, s.1 = true :=
        fun s hs => hall s (List.mem_cons_of_mem _ hs)
      by_cases hlp : ¬btn.long_press_triggered ∧ now - btn.press_start_time_us ≥ btn.long_press_us
      · have hstep : button_fsm_update btn true now =
            ({ btn with long_press_triggered := true }, [.buttonLongPress]) := by
          unfold button_fsm_update
          rw [hst]
          simp [hlp.1, hlp.2]
        have hrest := ih { btn with long_press_triggered := true } (by simp [hst]) hrestall
        simp [button_fsm_run, hstep, List.count_append, List.count_cons, hrest]
      · have hstep : button_fsm_update btn true now = (btn, []) := by
          unfold button_fsm_update
          rw [hst]
          rw [if_neg hlp]
          simp
        have hrest := ih btn hst hrestall
        simp [button_fsm_run, hstep, hrest]

/-- From DebouncePress, a run of pressed samples one of which reaches the
press-debounce threshold emits exactly one Press event. -/
theorem debounce_then_press_once :
    ∀ (samples : List (Bool × Int)) (btn : ButtonStateInfo),
      btn.state = .debouncePress →
      (∀ s ∈ samples, s.1 = true) →
      (∃ s ∈ samples, s.2 - btn.state_change_time_us ≥ btn.debounce_press_us) →
      (button_fsm_run btn samples).2.count InputEventType.buttonPress = 1 := by
  intro samples
  induction samples with
  | nil =>
      intro btn _ _ hex
      simp at hex
  | cons s rest ih =>
      intro btn hst hall hex
      obtain ⟨p, now⟩ := s
      have hp : p = true := hall (p, now) (List.mem_cons_self _ _)
      subst hp
      have hrestall : ∀ s ∈ rest, s.1 = true :=
        fun s hs => hall s (List.mem_cons_of_mem _ hs)
      by_cases hc : now - btn.state_change_time_us ≥ btn.debounce_press_us
      · have hstep : button_fsm_update btn true now =
            ({ btn with state := .pressedStable, press_start_time_us := now,
                        long_press_triggered := false }, [.buttonPress]) := by
          unfold button_fsm_update
          rw [hst]
          simp [hc]
        have hrest := pressed_hold_no_press rest
          { btn with state := .pressedStable, press_start_time_us := now,
                     long_press_triggered := false } rfl hrestall
        simp [button_fsm_run, hstep, List.count_append, List.count_cons, hrest]
      · have hstep : button_fsm_update btn true now = (btn, []) := by
          unfold button_fsm_update
          rw [hst]
          simp [hc]
        have hex2 : ∃ s ∈ rest, s.2 - btn.state_change_time_us ≥ btn.debounce_press_us := by
          obtain ⟨s, hs, hges⟩ := hex
          rcases List.mem_cons.mp hs with heq | hmem
          · exfalso
            apply hc
            simpa [heq] using hges
          · exact ⟨s, hmem, hges⟩
        have hrest := ih btn hst hrestall hex2
        simp [button_fsm_run, hstep, hrest]

/-! ## Audio provider: PSRAM cache (provider.c) -/

/-- `audio_info_t` from provider.h. -/
structure AudioInfo where
  frame_rate : Nat
  channels : Nat
  bit_depth : Nat
  total_frames : Nat
  deriving DecidableEq, Repr

/-- `CACHE_ENTRY_COUNT` from provider.c. -/
def CACHE_ENTRY_COUNT : Nat := 64

/-- `UINT32_MAX`, the initial value of `oldest_tick` in
`cache_find_lru_victim`. -/
def UINT32_MAX : Nat := 4294967295

/-- `CACHE_ITEM_MAXSIZE` from provider.c: half the total PSRAM size. -/
def CACHE_ITEM_MAXSIZE (psram_total : Nat) : Nat := psram_total / 2

/-- An occupied `cache_entry_t` from provider.c (an empty slot — NULL
filename and NULL buffer — is modelled as `none`).  The PCM buffer pointer
itself carries no information in the model.  Per-entry mutexes only guard
field access and are dropped. -/
structure CacheEntryData where
  filename : String
  frame_count : Nat
  info : AudioInfo
  buf_size : Nat
  total_samples : Nat
  ref_count : Nat
  last_access_tick : Nat
  deriving DecidableEq, Repr

/-- The cache-relevant part of `audio_provider_state_t` from provider.c:
the slot array (length `CACHE_ENTRY_COUNT` in the firmware), the byte
budget and the running usage accounting. -/
structure CacheState where
  cache : List (Option CacheEntryData)
  max_cache_bytes : Nat
  used_cache_bytes : Nat
  deriving DecidableEq, Repr

/-- `cache_lookup` from provider.c: index of the first slot whose filename
matches, scanning from slot 0. -/
def cache_lookup_from : List (Option CacheEntryData) → String → Nat → Option Nat
  | [], _, _ => none
  | none :: rest, fn, i => cache_lookup_from rest fn (i + 1)
  | some e :: rest, fn, i =>
      if e.filename = fn then some i else cache_lookup_from rest fn (i + 1)

/-- `cache_lookup` from provider.c (returns the slot index rather than the
entry pointer). -/
def cache_lookup (st : CacheState) (fn : String) : Option Nat :=
  cache_lookup_from st.cache fn 0

/-- The scanning loop of `cache_find_lru_victim` from provider.c:
`i` is the index of the head of the remaining slot list, `victim`/`oldest`
are the accumulator variables (`victim_idx`, `oldest_tick`). -/
def cache_find_lru_victim_go :
    List (Option CacheEntryData) → Nat → Option Nat → Nat → Option Nat
  | [], _, victim, _ => victim
  | none :: rest, i, victim, oldest =>
      cache_find_lru_victim_go rest (i + 1) victim oldest
  | some e :: rest, i, victim, oldest =>
      if e.ref_count > 0 then
        cache_find_lru_victim_go rest (i + 1) victim oldest
      else if e.last_access_tick < oldest then
        cache_find_lru_victim_go rest (i + 1) (some i) e.last_access_tick
      else
        cache_find_lru_victim_go rest (i + 1) victim oldest

/-- `cache_find_lru_victim` from provider.c: the oldest unreferenced
non-empty entry, or `none` when no entry is evictable. -/
def cache_find_lru_victim (st : CacheState) : Option Nat :=
  cache_find_lru_victim_go st.cache 0 none UINT32_MAX

/-- `free_cache_entry` from provider.c: returns the byte budget and empties
the slot (no-op on an already-empty slot). -/
def free_cache_entry (st : CacheState) (i : Nat) : CacheState :=
  match st.cache.getD i none with
  | none => st
  | some e =>
      { st with cache := st.cache.set i none,
                used_cache_bytes := st.used_cache_bytes - e.buf_size }

/-- The empty-slot search at the top of the `cache_reserve_and_alloc`
loop. -/
def find_empty_slot : List (Option CacheEntryData) → Nat → Option Nat
  | [], _ => none
  | none :: _, i => some i
  | some _ :: rest, i => find_empty_slot rest (i + 1)

/-- The `while (true)` loop of `cache_reserve_and_alloc` from provider.c.

`malloc` is the allocation oracle (`heap_caps_malloc` success per loop
iteration, capturing heap fragmentation); `fuel` bounds the recursion and
is irrelevant whenever it exceeds the number of occupied slots, since each
iteration that does not return evicts one entry.  Returns the error code,
the resulting state, and the reserved slot on success. -/
def cache_reserve_and_alloc_go (fuel : Nat) (st : CacheState) (slot0 : Option Nat)
    (malloc : Nat → Bool) (attempt : Nat) (total_bytes : Nat) :
    EspErr × CacheState × Option Nat :=
  match fuel with
  | 0 => (.fail, st, slot0)
  | fuel + 1 =>
      let slot := slot0.orElse (fun _ => find_empty_slot st.cache 0)
      let allocated :=
        match slot with
        | some _ =>
            if st.used_cache_bytes + total_bytes ≤ st.max_cache_bytes then
              malloc attempt
            else false
        | none => false
      if allocated then
        (.ok, { st with used_cache_bytes := st.used_cache_bytes + total_bytes }, slot)
      else
        match cache_find_lru_victim st with
        | none => (.noMem, st, none)
        | some victim =>
            cache_reserve_and_alloc_go fuel (free_cache_entry st victim)
              (slot.orElse (fun _ => some victim)) malloc (attempt + 1) total_bytes

/-- `cache_reserve_and_alloc` from provider.c. -/
def cache_reserve_and_alloc (st : CacheState) (malloc : Nat → Bool)
    (total_bytes : Nat) : EspErr × CacheState × Option Nat :=
  cache_reserve_and_alloc_go (st.cache.length + 2) st none malloc 0 total_bytes

/-- `cache_store_entry` from provider.c: commit the metadata into the
reserved slot (budget was already accounted in `cache_reserve_and_alloc`). -/
def cache_store_entry (st : CacheState) (slot : Nat) (fn : String)
    (info : AudioInfo) (total_bytes : Nat) (now_tick : Nat) : CacheState :=
  { st with cache := st.cache.set slot (some
      { filename := fn, frame_count := info.total_frames, info := info,
        buf_size := total_bytes,
        total_samples := info.total_frames * info.channels,
        ref_count := 0, last_access_tick := now_tick }) }

/-- One preload request as consumed by `cache_task`, bundling the outcomes
of the filesystem interactions for that file: the WAV-header parse result
(`cache_parse_wav_file`), the allocation oracle, and whether
`cache_read_pcm_data` reads the whole file. -/
structure PreloadItem where
  filename : String
  parse : Except EspErr AudioInfo
  malloc : Nat → Bool
  read_ok : Bool
  now_tick : Nat

/-- `cache_file_internal` from provider.c.

`psram_total` is `heap_caps_get_total_size(MALLOC_CAP_SPIRAM)`.  The
required buffer size is `total_frames * channels * sizeof(int16_t)` as
computed by `cache_parse_wav_file`. -/
def cache_file_internal (psram_total : Nat) (st : CacheState) (item : PreloadItem) :
    EspErr × CacheState :=
  if (cache_lookup st item.filename).isSome then (.ok, st)
  else
    match item.parse with
    | .error e => (e, st)
    | .ok info =>
        let total_bytes := info.total_frames * info.channels * 2
        if total_bytes > CACHE_ITEM_MAXSIZE psram_total then
          (.noMem, st)
        else
          match cache_reserve_and_alloc st item.malloc total_bytes with
          | (.ok, st2, some slot) =>
              if item.read_ok then
                (.ok, cache_store_entry st2 slot item.filename info total_bytes item.now_tick)
              else
                -- unreserve: give back the memory budget (buffer freed)
                (.fail, { st2 with used_cache_bytes := st2.used_cache_bytes - total_bytes })
          | (.ok, st2, none) => (.fail, st2)  -- not reachable: success carries a slot
          | (e, st2, _) => (e, st2)

/-- The item-processing loop of `cache_task` from provider.c: an empty
filename is the shutdown sentinel; any per-file error (in particular
`ESP_ERR_NO_MEM`) is logged and the loop moves on to the next item. -/
def cache_task_run (psram_total : Nat) (st : CacheState) :
    List PreloadItem → CacheState
  | [] => st
  | item :: rest =>
      if item.filename = "" then st
      else cache_task_run psram_total (cache_file_internal psram_total st item).2 rest

/-! ## Action mapper: configuration parsing (mapper.c) -/

/-- `action_type_t` from mapper.h. -/
inductive ActionTypeT where
  | stop
  | play
  | playCut
  | playLock
  deriving DecidableEq, Repr

/-- `action_t` from mapper.h: the action type together with its resolved
absolute filename where the type takes one. -/
inductive ActionT where
  | stop
  | play (filename : String)
  | playCut (filename : String)
  | playLock (filename : String)
  deriving DecidableEq, Repr

/-- `PAGE_ID_MAX_LEN` from mapper.h. -/
def PAGE_ID_MAX_LEN : Nat := 32

/-- `action_specs` from mapper.c: `(type, name, min_params, max_params)`. -/
def action_specs : List (ActionTypeT × String × Nat × Nat) :=
  [(.stop, "stop", 0, 0),
   (.play, "play", 1, 1),
   (.playCut, "play_cut", 1, 1),
   (.playLock, "play_lock", 1, 1)]

/-- `find_action_spec` from mapper.c. -/
def find_action_spec (name : List Char) : Option (ActionTypeT × String × Nat × Nat) :=
  action_specs.find? (fun s => name = s.2.1.toList)

/-- C `isspace` on the characters the firmware can encounter. -/
def c_isspace (c : Char) : Bool :=
  c = ' ' ∨ c = '\t' ∨ c = '\n' ∨ c = '\x0b' ∨ c = '\x0c' ∨ c = '\r'

/-- `trim` from mapper.c: strip leading and trailing whitespace. -/
def trim (s : List Char) : List Char :=
  ((s.dropWhile c_isspace).reverse.dropWhile c_isspace).reverse

/-- `atoi`: optional leading whitespace and sign, then a maximal digit run
(0 when no digits). -/
def atoi (s : List Char) : Int :=
  let s := s.dropWhile c_isspace
  let signed : Int × List Char :=
    match s with
    | '-' :: rest => (-1, rest)
    | '+' :: rest => (1, rest)
    | rest => (1, rest)
  let mag : Nat :=
    (signed.2.takeWhile Char.isDigit).foldl (fun a c => a * 10 + (c.toNat - 48)) 0
  signed.1 * mag

/-- The `strtok_r(line, ",", ...)` tokenization loop from `validate_line`:
maximal non-empty runs between commas (consecutive/leading/trailing commas
produce no empty tokens).  `acc` holds the current token reversed. -/
def split_commas_go : List Char → List Char → List (List Char)
  | [], acc => if acc = [] then [] else [acc.reverse]
  | c :: rest, acc =>
      if c = ',' then
        if acc = [] then split_commas_go rest []
        else acc.reverse :: split_commas_go rest []
      else split_commas_go rest (c :: acc)

/-- Tokenize a configuration line at commas, `strtok_r` style. -/
def strtok_commas (l : List Char) : List (List Char) := split_commas_go l []

/-- `parse_event_type` from mapper.c. -/
def parse_event_type (s : List Char) : Option InputEventType :=
  if s = "press".toList then some .buttonPress
  else if s = "long_press".toList then some .buttonLongPress
  else if s = "release".toList then some .buttonRelease
  else none

/-- `build_absolute_path` from mapper.c: strip leading slashes from the
relative filename and join it to the root. -/
def build_absolute_path (root : String) (filename : List Char) : String :=
  root ++ "/" ++ String.mk (filename.dropWhile (fun c => c = '/'))

/-- `parse_action` from mapper.c: `tokens` is the action name followed by
its parameters.  Too few parameters reject the line; parameters beyond the
action's maximum only produce a warning and are ignored. -/
def parse_action (tokens : List (List Char)) (root : String) : Option ActionT :=
  match tokens with
  | [] => none
  | action_name :: params =>
      match find_action_spec (trim action_name) with
      | none => none
      | some (ty, _, min_params, _) =>
          if params.length < min_params then none
          else
            match ty with
            | .stop => some .stop
            | .play => some (.play (build_absolute_path root (trim (params.getD 0 []))))
            | .playCut => some (.playCut (build_absolute_path root (trim (params.getD 0 []))))
            | .playLock => some (.playLock (build_absolute_path root (trim (params.getD 0 []))))

/-- `parsed_mapping_t` from mapper.c. -/
structure ParsedMapping where
  page_id : String
  button_number : Nat
  event : InputEventType
  action : ActionT
  deriving DecidableEq, Repr

/-- `validate_line` from mapper.c: tokenize, validate every field, build
the parsed mapping; `none` is `ESP_ERR_INVALID_ARG`. -/
def validate_line (line : List Char) (root : String) : Option ParsedMapping :=
  let tokens := (strtok_commas line).take 16
  if tokens.length < 4 then none
  else
    let page_id := trim (tokens.getD 0 [])
    if page_id.length = 0 then none
    else if page_id.length ≥ PAGE_ID_MAX_LEN then none
    else
      let button := atoi (trim (tokens.getD 1 []))
      if button < 1 ∨ button > 12 then none
      else
        match parse_event_type (trim (tokens.getD 2 [])) with
        | none => none
        | some event =>
            match parse_action (tokens.drop 3) root with
            | none => none
            | some action =>
                some { page_id := String.mk page_id,
                       button_number := button.toNat, event := event,
                       action := action }

/-- `mapping_node_t` from mapper.c. -/
structure MappingNode where
  button_number : Nat
  event : InputEventType
  action : ActionT
  deriving DecidableEq, Repr

/-- `page_node_t` from mapper.c (the `prev`/`next` ring links live in the
surrounding ring list). -/
structure PageNode where
  page_id : String
  page_number : Nat
  mappings : List MappingNode
  deriving DecidableEq, Repr

/-- The circular doubly-linked page list of `mapper_s`, represented as the
ring unrolled starting at `current_page` (head = current page), plus
`page_count`. -/
structure MapperPages where
  ring : List PageNode
  page_count : Nat
  deriving DecidableEq, Repr

/-- The overwrite scan of `insert_mapping` from mapper.c: replace the
first node with the same `(button, event)` key, if any. -/
def replace_first_mapping :
    List MappingNode → Nat → InputEventType → ActionT → Option (List MappingNode)
  | [], _, _, _ => none
  | m :: rest, btn, ev, act =>
      if m.button_number = btn ∧ m.event = ev then
        some ({ m with action := act } :: rest)
      else (replace_first_mapping rest btn ev act).map (m :: ·)

/-- `insert_mapping` from mapper.c: overwrite on key conflict, otherwise
insert the new node at the head of the page's mapping list. -/
def insert_mapping (maps : List MappingNode) (btn : Nat) (ev : InputEventType)
    (act : ActionT) : List MappingNode :=
  match replace_first_mapping maps btn ev act with
  | some maps2 => maps2
  | none => ⟨btn, ev, act⟩ :: maps

/-- `find_or_create_page` from mapper.c: search the ring from the current
page; on a miss create the page with number `page_count + 1` and insert it
immediately after the current page.  Returns the new state and the ring
index of the found/created page. -/
def find_or_create_page (mp : MapperPages) (pid : String) : MapperPages × Nat :=
  match mp.ring with
  | [] => ({ ring := [⟨pid, 1, []⟩], page_count := 1 }, 0)
  | cur :: rest =>
      match (cur :: rest).findIdx? (fun p => p.page_id = pid) with
      | some i => (mp, i)
      | none =>
          ({ ring := cur :: ⟨pid, mp.page_count + 1, []⟩ :: rest,
             page_count := mp.page_count + 1 }, 1)

/-- `parse_and_insert_mapping` from mapper.c. -/
def parse_and_insert_mapping (mp : MapperPages) (line : List Char) (root : String) :
    Option MapperPages :=
  match validate_line line root with
  | none => none
  | some pm =>
      let found := find_or_create_page mp pm.page_id
      let page := found.1.ring.getD found.2 ⟨"", 0, []⟩
      some { found.1 with
        ring := found.1.ring.set found.2
          { page with mappings :=
              insert_mapping page.mappings pm.button_number pm.event pm.action } }

/-- The line loop of `load_mappings_from_file` from mapper.c: blank lines
and `#` comments are skipped; the first invalid line aborts the whole load
(`.error ()`), leaving the remaining lines unprocessed. -/
def load_mappings_from_lines (root : String) (mp : MapperPages) :
    List (List Char) → Except Unit MapperPages
  | [] => .ok mp
  | line :: rest =>
      let l := trim line
      if l = [] ∨ l.getD 0 ' ' = '#' then load_mappings_from_lines root mp rest
      else
        match parse_and_insert_mapping mp l root with
        | none => .error ()
        | some mp2 => load_mappings_from_lines root mp2 rest

/-- The page-creation order observed during a load: successively apply
`find_or_create_page` for each referenced page id. -/
def load_pages (mp : MapperPages) : List String → MapperPages
  | [] => mp
  | pid :: rest => load_pages (find_or_create_page mp pid).1 rest

/-! ## Action mapper: event dispatch (mapper.c) -/

/-- `encoder_mode_t` from mapper.h. -/
inductive EncoderMode where
  | volume
  | page
  deriving DecidableEq, Repr

/-- `button_fsm_state_t` from mapper.c. -/
inductive BtnFsmState where
  | initial
  | playOnce
  | playCut
  | playLockPending
  | playLocked
  deriving DecidableEq, Repr

/-- The mutable part of `mapper_s` relevant to event dispatch. -/
structure MapperState where
  pages : MapperPages
  encoder_mode : EncoderMode
  button_fsm_state : BtnFsmState
  current_button : Nat
  current_filename : String
  deriving DecidableEq, Repr

/-- The calls `mapper_handle_event` makes into the player and the event
callback, in program order.  `preloadCurrentPage` stands for
`preload_current_page_files` (flush + enqueue of the new page's files). -/
inductive MapperEffect where
  | playerVolumeAdjust (step : Int)
  | playerPlay (filename : String)
  | playerStop
  | notifyEncoderModeChanged (mode : EncoderMode)
  | notifyPageChanged (page_id : String)
  | notifyActionExecuted (button : Nat) (event : InputEventType) (action : ActionT)
  | preloadCurrentPage
  deriving DecidableEq, Repr

/-- Advance the ring one step (`current_page = current_page->next`). -/
def ring_next (r : List PageNode) : List PageNode :=
  match r with
  | [] => []
  | x :: rest => rest ++ [x]

/-- Retreat the ring one step (`current_page = current_page->prev`). -/
def ring_prev (r : List PageNode) : List PageNode :=
  match r.reverse with
  | [] => []
  | x :: _ => x :: r.dropLast

/-- `find_page_by_number` from mapper.c, returning the ring index of the
page with the given 1-based number. -/
def find_page_by_number (mp : MapperPages) (n : Nat) : Option Nat :=
  if mp.ring = [] ∨ n = 0 ∨ n > mp.page_count then none
  else mp.ring.findIdx? (fun p => p.page_number = n)

/-- `find_mapping` from mapper.c: first matching node of the current
page's mapping list. -/
def find_mapping (mp : MapperPages) (btn : Nat) (ev : InputEventType) :
    Option MappingNode :=
  match mp.ring with
  | [] => none
  | cur :: _ =>
      cur.mappings.find? (fun m => m.button_number = btn ∧ m.event = ev)

/-- `execute_action` from mapper.c: drive the player, update the button
action FSM and the active-button latch, then notify. -/
def execute_action (st : MapperState) (btn : Nat) (ev : InputEventType)
    (act : ActionT) : MapperState × List MapperEffect :=
  match act with
  | .stop =>
      ({ st with button_fsm_state := .initial, current_button := 0 },
       [.playerStop, .notifyActionExecuted btn ev act])
  | .play fn =>
      ({ st with button_fsm_state := .playOnce, current_button := btn,
                 current_filename := fn },
       [.playerPlay fn, .notifyActionExecuted btn ev act])
  | .playCut fn =>
      ({ st with button_fsm_state := .playCut, current_button := btn,
                 current_filename := fn },
       [.playerPlay fn, .notifyActionExecuted btn ev act])
  | .playLock fn =>
      ({ st with button_fsm_state := .playLockPending, current_button := btn,
                 current_filename := fn },
       [.playerPlay fn, .notifyActionExecuted btn ev act])

/-- Rotate the ring so that the page at ring index `i` becomes current
(`handle->current_page = target_page`). -/
def ring_rotate_to (r : List PageNode) (i : Nat) : List PageNode :=
  r.drop i ++ r.take i

/-- Current page id (for `notify_page_changed`). -/
def current_page_id (mp : MapperPages) : String :=
  match mp.ring with
  | [] => ""
  | cur :: _ => cur.page_id

/-- `mapper_handle_event` from mapper.c, evaluated top-down exactly in
source order.  Returns the new mapper state and the effects performed. -/
def mapper_handle_event (st : MapperState) (button_number : Nat)
    (event : InputEventType) : MapperState × List MapperEffect :=
  if event = .encoderRotateCW then
    if st.encoder_mode = .volume then (st, [.playerVolumeAdjust 1])
    else if st.pages.ring ≠ [] ∧ st.pages.page_count > 1 then
      let pages2 := { st.pages with ring := ring_next st.pages.ring }
      ({ st with pages := pages2 },
       [.notifyPageChanged (current_page_id pages2), .preloadCurrentPage])
    else (st, [])
  else if event = .encoderRotateCCW then
    if st.encoder_mode = .volume then (st, [.playerVolumeAdjust (-1)])
    else if st.pages.ring ≠ [] ∧ st.pages.page_count > 1 then
      let pages2 := { st.pages with ring := ring_prev st.pages.ring }
      ({ st with pages := pages2 },
       [.notifyPageChanged (current_page_id pages2), .preloadCurrentPage])
    else (st, [])
  else if button_number = 0 then
    if event = .buttonPress then
      let mode2 : EncoderMode :=
        if st.encoder_mode = .volume then .page else .volume
      ({ st with encoder_mode := mode2 }, [.notifyEncoderModeChanged mode2])
    else (st, [])
  else if event = .buttonRelease ∧ 1 ≤ button_number ∧ button_number ≤ 12 then
    if st.current_button = button_number then
      match st.button_fsm_state with
      | .playCut => ({ st with button_fsm_state := .initial }, [.playerStop])
      | .playLockPending => ({ st with button_fsm_state := .initial }, [.playerStop])
      | .playOnce => ({ st with button_fsm_state := .initial }, [])
      | .playLocked => ({ st with button_fsm_state := .initial }, [])
      | .initial => (st, [])
    else (st, [])
  else if st.encoder_mode = .page ∧ event = .buttonPress
      ∧ 1 ≤ button_number ∧ button_number ≤ 12 then
    match find_page_by_number st.pages button_number with
    | some i =>
        let pages2 := { st.pages with ring := ring_rotate_to st.pages.ring i }
        ({ st with pages := pages2, encoder_mode := .volume },
         [.notifyEncoderModeChanged .volume,
          .notifyPageChanged (current_page_id pages2), .preloadCurrentPage])
    | none => (st, [])
  else if event = .buttonLongPress ∧ 1 ≤ button_number ∧ button_number ≤ 12
      ∧ st.current_button = button_number
      ∧ st.button_fsm_state = .playLockPending then
    ({ st with button_fsm_state := .playLocked }, [])
  else
    match find_mapping st.pages button_number event with
    | some m => execute_action st button_number event m.action
    | none => (st, [])

/-! ## Player engine (player.c) -/

/-- The calls the player task makes into the provider, the amplifier GPIO
and the event callback, in program order. -/
inductive PlayerEffect where
  | closeProviderStream (filename : String)
  | openProviderStream (filename : String)
  | setAmp (enable : Bool)
  | emitStopped
  | emitStarted (filename : String)
  | emitError (code : EspErr)
  | emitProgress (filename : String)
  deriving DecidableEq, Repr

/-- The event argument of `close_stream` (always `PLAYER_EVENT_STOPPED` or
`PLAYER_EVENT_ERROR` with a code in player.c). -/
inductive CloseEvent where
  | stopped
  | error (code : EspErr)
  deriving DecidableEq, Repr

/-- The player-task-owned part of `player_state_t` from player.c: the
current stream (identified by its filename; `none` = idle), the amplifier
SD-pin level, the last negotiated output format, and the progress
throttling state. -/
structure PlayerSt where
  stream : Option String
  amp : Bool
  last_frame_rate : Nat
  last_bit_depth : Nat
  last_channels : Nat
  current_filename : String
  last_progress_tick : Nat
  deriving DecidableEq, Repr

/-- `pdMS_TO_TICKS(50)` at the default 100 Hz FreeRTOS tick rate. -/
def PROGRESS_THROTTLE_TICKS : Nat := 5

/-- `close_stream` from player.c: close the provider stream if any, drive
the amplifier SD pin to `enable_amp`, and fire the given callback event. -/
def close_stream (p : PlayerSt) (ev : CloseEvent) (enable_amp : Bool) :
    PlayerSt × List PlayerEffect :=
  let closeEffs : List PlayerEffect :=
    match p.stream with
    | some fn => [.closeProviderStream fn]
    | none => []
  ({ p with stream := none, amp := enable_amp },
   closeEffs ++ [.setAmp enable_amp,
     match ev with
     | .stopped => .emitStopped
     | .error code => .emitError code])

/-- `configure_stream` from player.c: skip the I2S reconfiguration when
the format is unchanged; otherwise reconfigure (`cfg_ok` is the outcome of
the I2S driver calls).  On success the amplifier is enabled. -/
def configure_stream (p : PlayerSt) (frame_rate channels bit_depth : Nat)
    (cfg_ok : Bool) : EspErr × PlayerSt × List PlayerEffect :=
  if frame_rate = p.last_frame_rate ∧ bit_depth = p.last_bit_depth ∧
      channels = p.last_channels then
    (.ok, { p with amp := true }, [.setAmp true])
  else if cfg_ok then
    (.ok, { p with last_frame_rate := frame_rate, last_bit_depth := bit_depth,
                   last_channels := channels, amp := true }, [.setAmp true])
  else
    (.fail, p, [])

/-- `cmd_play` from player.c: tear down any existing stream (emitting
Stopped) before opening the new one; on open failure emit Error and leave
the player idle with the amplifier shut down; on success reconfigure the
sink if needed and emit Started.  `openRes` is the outcome of
`audio_provider_open_stream` (the stream info on success). -/
def cmd_play (p : PlayerSt) (fn : String) (openRes : Except EspErr AudioInfo)
    (cfg_ok : Bool) : PlayerSt × List PlayerEffect :=
  let closed : PlayerSt × List PlayerEffect :=
    match p.stream with
    | some _ => close_stream p .stopped true
    | none => (p, [])
  let p1 := closed.1
  let e1 := closed.2 ++ [PlayerEffect.openProviderStream fn]
  match openRes with
  | .error err =>
      let r := close_stream p1 (.error err) false
      ({ r.1 with stream := none }, e1 ++ r.2)
  | .ok info =>
      let p2 := { p1 with stream := some fn }
      let c := configure_stream p2 info.frame_rate info.channels info.bit_depth cfg_ok
      if c.1 ≠ .ok then
        let r := close_stream c.2.1 (.error c.1) false
        (r.1, e1 ++ c.2.2 ++ r.2)
      else
        ({ c.2.1 with current_filename := fn, last_progress_tick := 0 },
         e1 ++ c.2.2 ++ [.emitStarted fn])

/-- `cmd_stop` from player.c: `interrupt_now = true` closes the active
stream immediately; `false` is logged only (no functional effect). -/
def cmd_stop (p : PlayerSt) (interrupt_now : Bool) : PlayerSt × List PlayerEffect :=
  if interrupt_now then
    match p.stream with
    | some _ => close_stream p .stopped false
    | none => (p, [])
  else (p, [])

/-- `send_chunk` from player.c, with the outcomes of
`audio_provider_read_stream` (error code, samples read) and
`i2s_channel_write` (error code, bytes written) passed in.  Returns the
error code and the reported bytes written (0 on read error or at end of
stream). -/
def send_chunk (readRes writeRes : EspErr × Nat) : EspErr × Nat :=
  if readRes.1 ≠ .ok then (readRes.1, 0)
  else if readRes.2 = 0 then (.ok, 0)
  else if writeRes.1 ≠ .ok then (writeRes.1, writeRes.2)
  else (.ok, writeRes.2)

/-- One command received by the player task, bundling the provider/driver
outcomes its handling consumes. -/
inductive PlayerCmd where
  | play (filename : String) (openRes : Except EspErr AudioInfo) (cfg_ok : Bool)
  | stop (interrupt_now : Bool)

/-- One iteration of the `player_task` main loop from player.c: process
the received command, if any, then — when a stream is active — transfer one
chunk; a chunk error closes the stream with Error, a zero-byte write (end
of stream) closes it with Stopped, and otherwise progress is reported at
most every `PROGRESS_THROTTLE_TICKS` ticks. -/
def player_task_iter (p : PlayerSt) (cmd : Option PlayerCmd)
    (readRes writeRes : EspErr × Nat) (now : Nat) : PlayerSt × List PlayerEffect :=
  let afterCmd : PlayerSt × List PlayerEffect :=
    match cmd with
    | some (.play fn openRes cfg_ok) => cmd_play p fn openRes cfg_ok
    | some (.stop imm) => cmd_stop p imm
    | none => (p, [])
  let p1 := afterCmd.1
  let e1 := afterCmd.2
  match p1.stream with
  | none => (p1, e1)
  | some _ =>
      let r := send_chunk readRes writeRes
      if r.1 ≠ .ok then
        let c := close_stream p1 (.error r.1) false
        (c.1, e1 ++ c.2)
      else if r.2 = 0 then
        let c := close_stream p1 .stopped false
        (c.1, e1 ++ c.2)
      else if now - p1.last_progress_tick ≥ PROGRESS_THROTTLE_TICKS then
        ({ p1 with last_progress_tick := now },
         e1 ++ [.emitProgress p1.current_filename])
      else (p1, e1)

/-- Specification-side recursion mirroring the victim scan: the index
(relative to the given slot list) and tick of the entry the scanning loop
settles on, given the current `oldest` threshold. -/
def lruBest : List (Option CacheEntryData) → Nat → Option (Nat × Nat)
  | [], _ => none
  | none :: rest, oldest => (lruBest rest oldest).map (fun p => (p.1 + 1, p.2))
  | some e :: rest, oldest =>
      if e.ref_count > 0 then (lruBest rest oldest).map (fun p => (p.1 + 1, p.2))
      else if e.last_access_tick < oldest then
        match lruBest rest e.last_access_tick with
        | some p => some (p.1 + 1, p.2)
        | none => some (0, e.last_access_tick)
      else (lruBest rest oldest).map (fun p => (p.1 + 1, p.2))

theorem cache_find_lru_victim_go_eq :
    ∀ (l : List (Option CacheEntryData)) (k : Nat) (vic : Option Nat) (o : Nat),
      cache_find_lru_victim_go l k vic o =
        match lruBest l o with
        | some p => some (k + p.1)
        | none => vic := by
  intro l
  induction l with
  | nil => intro k vic o; rfl
  | cons x rest ih =>
      intro k vic o
      match x with
      | none =>
          simp only [cache_find_lru_victim_go, lruBest, ih]
          cases hb : lruBest rest o with
          | none => simp
          | some p => simp [Nat.add_assoc, Nat.add_comm 1 p.1]
      | some e =>
          by_cases href : e.ref_count > 0
          · simp only [cache_find_lru_victim_go, lruBest, if_pos href, ih]
            cases hb : lruBest rest o with
            | none => simp
            | some p => simp [Nat.add_assoc, Nat.add_comm 1 p.1]
          · by_cases htick : e.last_access_tick < o
            · simp only [cache_find_lru_victim_go, lruBest, if_neg href, if_pos htick, ih]
              cases hb : lruBest rest e.last_access_tick with
              | none => simp
              | some p => simp [Nat.add_assoc, Nat.add_comm 1 p.1]
            · simp only [cache_find_lru_victim_go, lruBest, if_neg href, if_neg htick, ih]
              cases hb : lruBest rest o with
              | none => simp
              | some p => simp [Nat.add_assoc, Nat.add_comm 1 p.1]

theorem lruBest_lt :
    ∀ (l : List (Option CacheEntryData)) (o : Nat) (p : Nat × Nat),
      lruBest l o = some p →
      p.2 < o ∧ ∃ e, l.getD p.1 none = some e ∧ e.ref_count = 0 ∧
        e.last_access_tick = p.2 := by
  intro l
  induction l with
  | nil => intro o p h; simp [lruBest] at h
  | cons x rest ih =>
      intro o p h
      match x with
      | none =>
          simp only [lruBest] at h
          obtain ⟨q, hq, rfl⟩ := Option.map_eq_some'.mp h
          obtain ⟨hlt, e, he, href, htk⟩ := ih o q hq
          exact ⟨hlt, e, by simpa using he, href, htk⟩
      | some e =>
          by_cases href : e.ref_count > 0
          · simp only [lruBest, if_pos href] at h
            obtain ⟨q, hq, rfl⟩ := Option.map_eq_some'.mp h
            obtain ⟨hlt, e2, he2, href2, htk2⟩ := ih o q hq
            exact ⟨hlt, e2, by simpa using he2, href2, htk2⟩
          · by_cases htick : e.last_access_tick < o
            · simp only [lruBest, if_neg href, if_pos htick] at h
              cases hb : lruBest rest e.last_access_tick with
              | none =>
                  rw [hb] at h
                  cases h
                  exact ⟨htick, e, rfl, by omega, rfl⟩
              | some q =>
                  rw [hb] at h
                  cases h
                  obtain ⟨hlt, e2, he2, href2, htk2⟩ := ih _ q hb
                  exact ⟨lt_trans hlt htick, e2, by simpa using he2, href2, htk2⟩
            · simp only [lruBest, if_neg href, if_neg htick] at h
              obtain ⟨q, hq, rfl⟩ := Option.map_eq_some'.mp h
              obtain ⟨hlt, e2, he2, href2, htk2⟩ := ih o q hq
              exact ⟨hlt, e2, by simpa using he2, href2, htk2⟩

theorem lruBest_none :
    ∀ (l : List (Option CacheEntryData)) (o : Nat),
      lruBest l o = none →
      ∀ j e, l.getD j none = some e → e.ref_count = 0 → o ≤ e.last_access_tick := by
  intro l
  induction l with
  | nil => intro o _ j e hj; simp at hj
  | cons x rest ih =>
      intro o h j e hj href
      match x with
      | none =>
          simp only [lruBest, Option.map_eq_none'] at h
          match j with
          | 0 => simp at hj
          | j + 1 => exact ih o h j e (by simpa using hj) href
      | some e0 =>
          by_cases href0 : e0.ref_count > 0
          · simp only [lruBest, if_pos href0, Option.map_eq_none'] at h
            match j with
            | 0 =>
                simp at hj
                subst hj
                omega
            | j + 1 => exact ih o h j e (by simpa using hj) href
          · by_cases htick : e0.last_access_tick < o
            · exfalso
              simp only [lruBest, if_neg href0, if_pos htick] at h
              cases hb : lruBest rest e0.last_access_tick with
              | none => rw [hb] at h; cases h
              | some q => rw [hb] at h; cases h
            · simp only [lruBest, if_neg href0, if_neg htick, Option.map_eq_none'] at h
              match j with
              | 0 =>
                  simp at hj
                  subst hj
                  omega
              | j + 1 => exact ih o h j e (by simpa using hj) href

theorem lruBest_min :
    ∀ (l : List (Option CacheEntryData)) (o : Nat) (p : Nat × Nat),
      lruBest l o = some p →
      ∀ j e, l.getD j none = some e → e.ref_count = 0 → e.last_access_tick < o →
        p.2 ≤ e.last_access_tick ∧ (e.last_access_tick = p.2 → p.1 ≤ j) := by
  intro l
  induction l with
  | nil => intro o p h; simp [lruBest] at h
  | cons x rest ih =>
      intro o p h j e hj href htick
      match x with
      | none =>
          simp only [lruBest] at h
          obtain ⟨q, hq, rfl⟩ := Option.map_eq_some'.mp h
          match j with
          | 0 => simp at hj
          | j + 1 =>
              obtain ⟨h1, h2⟩ := ih o q hq j e (by simpa using hj) href htick
              exact ⟨h1, fun ht => by simpa using Nat.succ_le_succ (h2 ht)⟩
      | some e0 =>
          by_cases href0 : e0.ref_count > 0
          · simp only [lruBest, if_pos href0] at h
            obtain ⟨q, hq, rfl⟩ := Option.map_eq_some'.mp h
            match j with
            | 0 =>
                simp at hj
                subst hj
                omega
            | j + 1 =>
                obtain ⟨h1, h2⟩ := ih o q hq j e (by simpa using hj) href htick
                exact ⟨h1, fun ht => by simpa using Nat.succ_le_succ (h2 ht)⟩
          · by_cases htick0 : e0.last_access_tick < o
            · simp only [lruBest, if_neg href0, if_pos htick0] at h
              cases hb : lruBest rest e0.last_access_tick with
              | none =>
                  rw [hb] at h
                  cases h
                  match j with
                  | 0 =>
                      simp at hj
                      subst hj
                      exact ⟨le_refl _, fun _ => le_refl _⟩
                  | j + 1 =>
                      have hge := lruBest_none rest e0.last_access_tick hb j e
                        (by simpa using hj) href
                      exact ⟨hge, fun _ => Nat.zero_le _⟩
              | some q =>
                  rw [hb] at h
                  cases h
                  obtain ⟨hqlt, _, _, _, _⟩ := lruBest_lt rest e0.last_access_tick q hb
                  match j with
                  | 0 =>
                      simp at hj
                      subst hj
                      exact ⟨le_of_lt hqlt, fun ht => by omega⟩
                  | j + 1 =>
                      by_cases hcmp : e.last_access_tick < e0.last_access_tick
                      · obtain ⟨h1, h2⟩ := ih _ q hb j e (by simpa using hj) href hcmp
                        exact ⟨h1, fun ht => by simpa using Nat.succ_le_succ (h2 ht)⟩
                      · refine ⟨by omega, fun ht => by omega⟩
            · simp only [lruBest, if_neg href0, if_neg htick0] at h
              obtain ⟨q, hq, rfl⟩ := Option.map_eq_some'.mp h
              match j with
              | 0 =>
                  simp at hj
                  subst hj
                  omega
              | j + 1 =>
                  obtain ⟨h1, h2⟩ := ih o q hq j e (by simpa using hj) href htick
                  exact ⟨h1, fun ht => by simpa using Nat.succ_le_succ (h2 ht)⟩

theorem lruBest_all_ref :
    ∀ (l : List (Option CacheEntryData)) (o : Nat),
      (∀ j e, l.getD j none = some e → 0 < e.ref_count) →
      lruBest l o = none := by
  intro l
  induction l with
  | nil => intro o _; rfl
  | cons x rest ih =>
      intro o hall
      match x with
      | none =>
          simp only [lruBest, Option.map_eq_none']
          exact ih o (fun j e hj => hall (j + 1) e (by simpa using hj))
      | some e0 =>
          have href0 : 0 < e0.ref_count := hall 0 e0 rfl
          simp only [lruBest, if_pos href0, Option.map_eq_none']
          exact ih o (fun j e hj => hall (j + 1) e (by simpa using hj))

/-! ## Theorems -/

/-- C7: the 32-entry volume_table is non-decreasing in the index; applying
software volume with the factor at index 0 produces an all-zero buffer for
every input buffer; and applying it with the factor at index 31 (unity)
leaves every sample bit-exact unchanged. -/
theorem volume_table_monotone_and_endpoints :
    (∀ i : Fin 31, volume_table.getD i.val 0 ≤ volume_table.getD (i.val + 1) 0)
    ∧ (∀ buffer : List Int,
        apply_software_volume buffer (volume_table.getD 0 0) =
          List.replicate buffer.length 0)
    ∧ (∀ buffer : List Int,
        apply_software_volume buffer (volume_table.getD 31 0) = buffer) := by
  refine ⟨by decide, ?_, ?_⟩
  · intro buffer
    simp [apply_software_volume, volume_table, VOLUME_FACTOR_UNITY]
  · intro buffer
    simp [apply_software_volume, volume_table, VOLUME_FACTOR_UNITY]

/-- C6: for every press-debounce threshold T, starting from the freshly
initialised FSM, a pressed level held across samples all strictly earlier
than T after the initial press sample and then released emits no Press
event; and a pressed level held with some sample at least T after the
initial press sample emits exactly one Press event. -/
theorem button_debounce_correctness (dp dr lp t0 tr : Int) (holds : List Int) :
    ((∀ t ∈ holds, t - t0 < dp) →
      (button_fsm_run (init_button_state dp dr lp)
        ((true, t0) :: (holds.map (fun t => (true, t)) ++ [(false, tr)]))).2.count
          InputEventType.buttonPress = 0)
    ∧ ((∃ t ∈ holds, t - t0 ≥ dp) →
      (button_fsm_run (init_button_state dp dr lp)
        ((true, t0) :: holds.map (fun t => (true, t)))).2.count
          InputEventType.buttonPress = 1) := by
  have hstep0 : button_fsm_update (init_button_state dp dr lp) true t0 =
      ({ init_button_state dp dr lp with
          state := .debouncePress, state_change_time_us := t0 }, []) := by
    unfold button_fsm_update init_button_state
    simp
  constructor
  · intro hshort
    have hmid := debounce_hold_no_events
      { init_button_state dp dr lp with
          state := .debouncePress, state_change_time_us := t0 } rfl
      (holds.map (fun t => (true, t)))
      (by
        intro s hs
        obtain ⟨t, ht, rfl⟩ := List.mem_map.mp hs
        exact ⟨rfl, by simpa [init_button_state] using hshort t ht⟩)
    have hlast : button_fsm_update
        { init_button_state dp dr lp with
            state := .debouncePress, state_change_time_us := t0 } false tr =
        ({ init_button_state dp dr lp with
            state := .idle, state_change_time_us := t0 }, []) := by
      unfold button_fsm_update
      simp
    simp [button_fsm_run, hstep0, button_fsm_run_append, hmid, hlast]
  · intro hlong
    have hmid := debounce_then_press_once (holds.map (fun t => (true, t)))
      { init_button_state dp dr lp with
          state := .debouncePress, state_change_time_us := t0 } rfl
      (by
        intro s hs
        obtain ⟨t, ht, rfl⟩ := List.mem_map.mp hs
        rfl)
      (by
        obtain ⟨t, ht, hge⟩ := hlong
        exact ⟨(true, t), List.mem_map_of_mem _ ht,
          by simpa [init_button_state] using hge⟩)
    simp [button_fsm_run, hstep0, hmid]

/-- Witness for C6 at concrete thresholds: T = 5000 µs; samples at
0/1000/2000 then release at 3000 yield no Press; samples at 0/1000/6000
yield exactly one Press. -/
theorem button_debounce_correctness_witness :
    (∀ t ∈ ([1000, 2000] : List Int), t - 0 < 5000)
    ∧ (∃ t ∈ ([1000, 6000] : List Int), t - 0 ≥ 5000)
    ∧ (button_fsm_run (init_button_state 5000 3000 100000)
        ((true, 0) :: (List.map (fun t => (true, t)) [1000, 2000] ++ [(false, 3000)]))).2.count
          InputEventType.buttonPress = 0
    ∧ (button_fsm_run (init_button_state 5000 3000 100000)
        ((true, 0) :: List.map (fun t => (true, t)) [1000, 6000])).2.count
          InputEventType.buttonPress = 1 :=
  ⟨by decide, by decide,
   (button_debounce_correctness 5000 3000 100000 0 3000 [1000, 2000]).1 (by decide),
   (button_debounce_correctness 5000 3000 100000 0 0 [1000, 6000]).2 (by decide)⟩

theorem cache_reserve_and_alloc_go_succ_eq (fuel : Nat) (st : CacheState)
    (slot0 : Option Nat) (malloc : Nat → Bool) (attempt total_bytes : Nat) :
    cache_reserve_and_alloc_go (fuel + 1) st slot0 malloc attempt total_bytes =
      (let slot := slot0.orElse (fun _ => find_empty_slot st.cache 0)
       let allocated :=
         match slot with
         | some _ =>
             if st.used_cache_bytes + total_bytes ≤ st.max_cache_bytes then
               malloc attempt
             else false
         | none => false
       if allocated then
         (.ok, { st with used_cache_bytes := st.used_cache_bytes + total_bytes }, slot)
       else
         match cache_find_lru_victim st with
         | none => (.noMem, st, none)
         | some victim =>
             cache_reserve_and_alloc_go fuel (free_cache_entry st victim)
               (slot.orElse (fun _ => some victim)) malloc (attempt + 1) total_bytes) := rfl

/-- C1: the LRU victim scan never selects an entry with a positive
reference count: a selected victim is an unreferenced non-empty entry with
the minimal last-access tick, ties resolved towards the lowest slot index;
when every non-empty entry is referenced the scan finds no victim; and
when additionally the first reserve-and-allocate attempt cannot succeed
directly (no empty slot, budget exceeded, or allocation failure), the
reserve-and-allocate loop fails with `ESP_ERR_NO_MEM`, leaving the cache
state unchanged (nothing is evicted). -/
theorem cache_eviction_refcount_and_oom (st : CacheState) (malloc : Nat → Bool)
    (total_bytes : Nat) :
    (∀ i, cache_find_lru_victim st = some i →
      ∃ e, st.cache.getD i none = some e ∧ e.ref_count = 0 ∧
        ∀ j e2, st.cache.getD j none = some e2 → e2.ref_count = 0 →
          e.last_access_tick ≤ e2.last_access_tick ∧
          (e2.last_access_tick = e.last_access_tick → i ≤ j))
    ∧ ((∀ j e, st.cache.getD j none = some e → 0 < e.ref_count) →
        cache_find_lru_victim st = none)
    ∧ ((∀ j e, st.cache.getD j none = some e → 0 < e.ref_count) →
        (find_empty_slot st.cache 0 = none ∨
         ¬ (st.used_cache_bytes + total_bytes ≤ st.max_cache_bytes) ∨
         malloc 0 = false) →
        cache_reserve_and_alloc st malloc total_bytes = (.noMem, st, none)) := by
  have hvic_none : (∀ j e, st.cache.getD j none = some e → 0 < e.ref_count) →
      cache_find_lru_victim st = none := by
    intro hall
    rw [cache_find_lru_victim, cache_find_lru_victim_go_eq,
        lruBest_all_ref st.cache UINT32_MAX hall]
  refine ⟨?_, hvic_none, ?_⟩
  · intro i h
    rw [cache_find_lru_victim, cache_find_lru_victim_go_eq] at h
    cases hb : lruBest st.cache UINT32_MAX with
    | none => rw [hb] at h; cases h
    | some p =>
        rw [hb] at h
        injection h with h2
        obtain ⟨hlt, e, he, href, htk⟩ := lruBest_lt st.cache UINT32_MAX p hb
        refine ⟨e, by rw [← h2]; simpa using he, href, ?_⟩
        intro j e2 hj href2
        by_cases hcap : e2.last_access_tick < UINT32_MAX
        · obtain ⟨hm1, hm2⟩ := lruBest_min st.cache UINT32_MAX p hb j e2 hj href2 hcap
          exact ⟨by omega, fun ht => by omega⟩
        · exact ⟨by omega, fun ht => by omega⟩
  · intro hall hfail
    have hvic := hvic_none hall
    have h1 : cache_reserve_and_alloc st malloc total_bytes =
        cache_reserve_and_alloc_go (st.cache.length + 1 + 1) st none malloc 0 total_bytes := rfl
    rw [h1, cache_reserve_and_alloc_go_succ_eq]
    rcases hfail with hempty | hbudget | hmalloc
    · simp [hempty, hvic]
    · cases hslot : find_empty_slot st.cache 0 with
      | none => simp [hslot, hvic]
      | some s => simp [hslot, hvic, hbudget]
    · cases hslot : find_empty_slot st.cache 0 with
      | none => simp [hslot, hvic]
      | some s =>
          by_cases hbudget : st.used_cache_bytes + total_bytes ≤ st.max_cache_bytes
          · simp [hslot, hvic, hbudget, hmalloc]
          · simp [hslot, hvic, hbudget]

/-- A concrete cache state with two unreferenced entries (ticks 5 and 3). -/
def cacheStW1 : CacheState :=
  { cache := [some { filename := "a", frame_count := 1,
                     info := ⟨48000, 1, 16, 1⟩, buf_size := 2, total_samples := 1,
                     ref_count := 0, last_access_tick := 5 },
              some { filename := "b", frame_count := 1,
                     info := ⟨48000, 1, 16, 1⟩, buf_size := 2, total_samples := 1,
                     ref_count := 0, last_access_tick := 3 }],
    max_cache_bytes := 100, used_cache_bytes := 4 }

/-- A concrete full cache state whose only entry is referenced. -/
def cacheStW2 : CacheState :=
  { cache := [some { filename := "a", frame_count := 1,
                     info := ⟨48000, 1, 16, 1⟩, buf_size := 2, total_samples := 1,
                     ref_count := 1, last_access_tick := 5 }],
    max_cache_bytes := 100, used_cache_bytes := 2 }

/-- Witness for C1: on `cacheStW1` the victim is slot 1 (oldest tick) and
satisfies the selection property; on `cacheStW2` (all entries referenced)
no victim exists and the reserve-and-allocate loop fails with
`ESP_ERR_NO_MEM` without touching the state. -/
theorem cache_eviction_refcount_and_oom_witness :
    (∃ e, cacheStW1.cache.getD 1 none = some e ∧ e.ref_count = 0 ∧
      ∀ j e2, cacheStW1.cache.getD j none = some e2 → e2.ref_count = 0 →
        e.last_access_tick ≤ e2.last_access_tick ∧
        (e2.last_access_tick = e.last_access_tick → 1 ≤ j))
    ∧ cache_find_lru_victim cacheStW2 = none
    ∧ cache_reserve_and_alloc cacheStW2 (fun _ => false) 1000 =
        (.noMem, cacheStW2, none) :=
  have hall : ∀ j e, cacheStW2.cache.getD j none = some e → 0 < e.ref_count := by
    intro j e hj
    match j with
    | 0 =>
        simp [cacheStW2] at hj
        subst hj
        decide
    | j + 1 => simp [cacheStW2] at hj
  ⟨(cache_eviction_refcount_and_oom cacheStW1 (fun _ => false) 1000).1 1 (by decide),
   (cache_eviction_refcount_and_oom cacheStW2 (fun _ => false) 1000).2.1 hall,
   (cache_eviction_refcount_and_oom cacheStW2 (fun _ => false) 1000).2.2 hall
     (Or.inl (by decide))⟩

/-- C9: preloading a file whose required PCM buffer size exceeds half of
total PSRAM fails with `ESP_ERR_NO_MEM` before any slot is reserved or
budget consumed (the state is unchanged), the file is absent from the
cache table afterward, and the preload task continues with the remaining
queue items. -/
theorem preload_oversized_rejected (psram_total : Nat) (st : CacheState)
    (item : PreloadItem) (info : AudioInfo) (rest : List PreloadItem)
    (hparse : item.parse = .ok info)
    (hbig : info.total_frames * info.channels * 2 > CACHE_ITEM_MAXSIZE psram_total)
    (hmiss : cache_lookup st item.filename = none)
    (hfn : item.filename ≠ "") :
    cache_file_internal psram_total st item = (.noMem, st)
    ∧ cache_lookup (cache_file_internal psram_total st item).2 item.filename = none
    ∧ cache_task_run psram_total st (item :: rest) = cache_task_run psram_total st rest := by
  have hmain : cache_file_internal psram_total st item = (.noMem, st) := by
    rw [cache_file_internal, hmiss, hparse]
    simp [hbig]
  refine ⟨hmain, by rw [hmain]; exact hmiss, ?_⟩
  rw [cache_task_run, if_neg hfn, hmain]

/-- Witness for C9: a 200-byte mono file against 100 bytes of PSRAM (cache
item limit 50 bytes) is rejected with `ESP_ERR_NO_MEM` and an untouched
empty cache. -/
theorem preload_oversized_rejected_witness :
    cache_file_internal 100
      { cache := [none, none], max_cache_bytes := 100, used_cache_bytes := 0 }
      { filename := "big.wav", parse := .ok ⟨48000, 1, 16, 100⟩,
        malloc := fun _ => true, read_ok := true, now_tick := 0 } =
      (.noMem, { cache := [none, none], max_cache_bytes := 100, used_cache_bytes := 0 }) :=
  (preload_oversized_rejected 100
    { cache := [none, none], max_cache_bytes := 100, used_cache_bytes := 0 }
    { filename := "big.wav", parse := .ok ⟨48000, 1, 16, 100⟩,
      malloc := fun _ => true, read_ok := true, now_tick := 0 }
    ⟨48000, 1, 16, 100⟩ [] rfl (by decide) (by decide) (by decide)).1

theorem findIdx_none_of_all_false {α} (p : α → Bool) :
    ∀ l : List α, (∀ x ∈ l, p x = false) → l.findIdx? p = none := by
  intro l
  induction l with
  | nil => intro _; rfl
  | cons x rest ih =>
      intro h
      have hx := h x (List.mem_cons_self _ _)
      simp [List.findIdx?, hx, ih (fun y hy => h y (List.mem_cons_of_mem _ hy))]

theorem enumFrom_append_eq {α} :
    ∀ (l1 l2 : List α) (n : Nat),
      (l1 ++ l2).enumFrom n = l1.enumFrom n ++ l2.enumFrom (n + l1.length) := by
  intro l1
  induction l1 with
  | nil => intro l2 n; simp
  | cons x rest ih =>
      intro l2 n
      simp only [List.cons_append, List.append_eq, List.enumFrom, ih, List.length_cons]
      rw [Nat.add_comm rest.length 1, ← Nat.add_assoc]

theorem load_pages_fresh :
    ∀ (todo : List String) (cur : PageNode) (tail : List PageNode) (cnt : Nat),
      todo.Nodup →
      (∀ pid ∈ todo, cur.page_id ≠ pid ∧ ∀ p ∈ tail, p.page_id ≠ pid) →
      load_pages ⟨cur :: tail, cnt⟩ todo =
        ⟨cur :: (((todo.enumFrom (cnt + 1)).map
            (fun q => (⟨q.2, q.1, []⟩ : PageNode))).reverse ++ tail),
         cnt + todo.length⟩ := by
  intro todo
  induction todo with
  | nil => intro cur tail cnt _ _; simp [load_pages]
  | cons pid rest ih =>
      intro cur tail cnt hnd hfresh
      have hfind : (cur :: tail).findIdx? (fun p => p.page_id = pid) = none := by
        apply findIdx_none_of_all_false
        intro x hx
        rcases List.mem_cons.mp hx with rfl | hmem
        · simp [(hfresh pid (List.mem_cons_self _ _)).1]
        · simp [(hfresh pid (List.mem_cons_self _ _)).2 x hmem]
      have hstep : find_or_create_page ⟨cur :: tail, cnt⟩ pid =
          ({ ring := cur :: ⟨pid, cnt + 1, []⟩ :: tail, page_count := cnt + 1 }, 1) := by
        simp [find_or_create_page, hfind]
      have hfresh2 : ∀ q ∈ rest,
          cur.page_id ≠ q ∧ ∀ p ∈ (⟨pid, cnt + 1, []⟩ : PageNode) :: tail, p.page_id ≠ q := by
        intro q hq
        refine ⟨(hfresh q (List.mem_cons_of_mem _ hq)).1, ?_⟩
        intro p hp
        rcases List.mem_cons.mp hp with rfl | hmem
        · intro h
          have h2 : pid = q := h
          exact (List.nodup_cons.mp hnd).1 (by rw [h2]; exact hq)
        · exact (hfresh q (List.mem_cons_of_mem _ hq)).2 p hmem
      have hrec := ih cur (⟨pid, cnt + 1, []⟩ :: tail) (cnt + 1)
        (List.nodup_cons.mp hnd).2 hfresh2
      simp only [load_pages, hstep, hrec, List.enumFrom, List.map_cons,
        List.reverse_cons, List.append_assoc, List.cons_append, List.nil_append,
        List.length_cons]
      have harith : cnt + 1 + rest.length = cnt + (rest.length + 1) := by omega
      rw [← harith]

/-- C10: loading distinct pages `p1 :: rest` from an empty mapper keeps the
current page at `p1` (page number 1) while inserting every further page
immediately after it, so the ring after `p1` holds `rest` in reverse load
order with page numbers 2, 3, … assigned densely in load order; hence one
`next` step from the initial page reaches the page whose number is
`page_count` (the last page loaded). -/
theorem pages_inserted_after_current_reverse_order (p1 : String) (rest : List String)
    (hnd : (p1 :: rest).Nodup) :
    load_pages ⟨[], 0⟩ (p1 :: rest) =
      ⟨⟨p1, 1, []⟩ :: ((rest.enumFrom 2).map
          (fun q => (⟨q.2, q.1, []⟩ : PageNode))).reverse,
       rest.length + 1⟩
    ∧ (∀ plast init, rest = init ++ [plast] →
        (ring_next (load_pages ⟨[], 0⟩ (p1 :: rest)).ring).getD 0 ⟨"", 0, []⟩ =
          ⟨plast, rest.length + 1, []⟩) := by
  have hstep : find_or_create_page ⟨[], 0⟩ p1 = (⟨[⟨p1, 1, []⟩], 1⟩, 0) := rfl
  have hfresh : ∀ pid ∈ rest,
      (⟨p1, 1, []⟩ : PageNode).page_id ≠ pid ∧
        ∀ p ∈ ([] : List PageNode), p.page_id ≠ pid := by
    intro pid hpid
    refine ⟨?_, by simp⟩
    intro h
    have h2 : p1 = pid := h
    exact (List.nodup_cons.mp hnd).1 (by rw [h2]; exact hpid)
  have hmain : load_pages ⟨[], 0⟩ (p1 :: rest) =
      ⟨⟨p1, 1, []⟩ :: ((rest.enumFrom 2).map
          (fun q => (⟨q.2, q.1, []⟩ : PageNode))).reverse,
       rest.length + 1⟩ := by
    have := load_pages_fresh rest ⟨p1, 1, []⟩ [] 1 (List.nodup_cons.mp hnd).2 hfresh
    simp only [load_pages, hstep, this, List.append_nil]
    rw [Nat.add_comm 1 rest.length]
  refine ⟨hmain, ?_⟩
  intro plast init hrest
  rw [hmain]
  subst hrest
  rw [enumFrom_append_eq]
  simp [ring_next, List.enumFrom]
  omega

/-- Witness for C10: loading pages "a", "b", "c" yields the ring
a(1) → c(3) → b(2) with the current page still at "a", so one `next` step
reaches "c", the page numbered `page_count`. -/
theorem pages_inserted_after_current_reverse_order_witness :
    ((["a", "b", "c"] : List String).Nodup)
    ∧ load_pages ⟨[], 0⟩ ["a", "b", "c"] =
        ⟨[⟨"a", 1, []⟩, ⟨"c", 3, []⟩, ⟨"b", 2, []⟩], 3⟩
    ∧ (ring_next (load_pages ⟨[], 0⟩ ["a", "b", "c"]).ring).getD 0 ⟨"", 0, []⟩ =
        ⟨"c", 3, []⟩ :=
  ⟨by decide,
   ((pages_inserted_after_current_reverse_order "a" ["b", "c"] (by decide)).1).trans
     (by decide),
   ((pages_inserted_after_current_reverse_order "a" ["b", "c"] (by decide)).2
     "c" ["b"] rfl).trans (by decide)⟩

/-- A one-page mapper state whose only binding is (button 2, release →
stop); no button is latched as active. -/
def mapperStC2 : MapperState :=
  { pages := { ring := [⟨"default", 1, [⟨2, .buttonRelease, .stop⟩]⟩], page_count := 1 },
    encoder_mode := .volume, button_fsm_state := .initial, current_button := 0,
    current_filename := "" }

/-- C2 counterexample: in `mapperStC2` a (button 2, release) binding
exists and button 2 is NOT the latched active button (none is), yet
`mapper_handle_event` performs no effect at all on the release of
button 2 — the release is consumed before the mapping-table lookup, so the
bound action is not executed. -/
theorem release_binding_not_executed_cex :
    find_mapping mapperStC2.pages 2 .buttonRelease =
      some ⟨2, .buttonRelease, .stop⟩
    ∧ mapperStC2.current_button ≠ 2
    ∧ mapper_handle_event mapperStC2 2 .buttonRelease = (mapperStC2, []) := by
  decide

/-- C2 amended: every release event on a matrix button 1..12 is consumed
by the release-handling block of `mapper_handle_event`: if the button is
the currently latched active one the Button Action FSM resolves it
(stopping playback in PlayCut/PlayLockPending, merely unlatching in
PlayOnce/PlayLocked), and otherwise the event is dropped; the
mapping-table lookup is never reached for release events. -/
theorem release_always_consumed_by_fsm (st : MapperState) (btn : Nat)
    (h1 : 1 ≤ btn) (h2 : btn ≤ 12) :
    mapper_handle_event st btn .buttonRelease =
      (if st.current_button = btn then
        match st.button_fsm_state with
        | .playCut => ({ st with button_fsm_state := .initial }, [.playerStop])
        | .playLockPending => ({ st with button_fsm_state := .initial }, [.playerStop])
        | .playOnce => ({ st with button_fsm_state := .initial }, [])
        | .playLocked => ({ st with button_fsm_state := .initial }, [])
        | .initial => (st, [])
      else (st, [])) := by
  have hb0 : btn ≠ 0 := by omega
  simp [mapper_handle_event, hb0, h1, h2]

/-- Witness for C2's amended theorem: with button 2 latched in PlayCut,
its release stops playback and resets the FSM. -/
theorem release_always_consumed_by_fsm_witness :
    (1 ≤ 2 ∧ 2 ≤ 12)
    ∧ mapper_handle_event
        { mapperStC2 with current_button := 2, button_fsm_state := .playCut }
        2 .buttonRelease =
      ({ mapperStC2 with current_button := 2, button_fsm_state := .initial },
       [.playerStop]) :=
  ⟨by decide, by
    rw [release_always_consumed_by_fsm
      { mapperStC2 with current_button := 2, button_fsm_state := .playCut }
      2 (by decide) (by decide)]
    decide⟩

/-- C4 counterexample: a mapping line whose action carries more parameters
than the action requires — here `stop` with one parameter — is NOT
rejected: `parse_action` accepts it (ignoring the extras with a warning),
`validate_line` accepts the whole line, and the load succeeds rather than
aborting. -/
theorem action_extra_params_accepted_cex :
    parse_action ["stop".toList, "x".toList] "/sdcard" = some .stop
    ∧ validate_line "default,1,press,stop,x".toList "/sdcard" =
        some ⟨"default", 1, .buttonPress, .stop⟩
    ∧ load_mappings_from_lines "/sdcard" ⟨[], 0⟩ ["default,1,press,stop,x".toList] =
        .ok ⟨[⟨"default", 1, [⟨1, .buttonPress, .stop⟩]⟩], 1⟩ :=
  ⟨rfl, rfl, rfl⟩

/-- C4 amended: configuration load rejects a mapping line whose action has
fewer parameters than the action's minimum arity, and such a line aborts
the whole load; parameters beyond the action's maximum are accepted with a
warning and ignored (they do not influence the parsed action), and do not
abort the load. -/
theorem action_arity_amended (root : String) (p : List Char)
    (ps : List (List Char)) (mp : MapperPages) (line : List Char)
    (rest : List (List Char)) :
    parse_action ("stop".toList :: ps) root = some .stop
    ∧ parse_action ("play".toList :: p :: ps) root =
        some (.play (build_absolute_path root (trim p)))
    ∧ parse_action ["play".toList] root = none
    ∧ (trim line ≠ [] → (trim line).getD 0 ' ' ≠ '#' →
        validate_line (trim line) root = none →
        load_mappings_from_lines root mp (line :: rest) = .error ()) := by
  have hstop : find_action_spec (trim "stop".toList) = some (.stop, "stop", 0, 0) := by
    decide
  have hplay : find_action_spec (trim "play".toList) = some (.play, "play", 1, 1) := by
    decide
  refine ⟨?_, ?_, ?_, ?_⟩
  · simp only [parse_action]
    rw [hstop]
    simp
  · simp only [parse_action]
    rw [hplay]
    simp [List.getD]
  · simp only [parse_action]
    rw [hplay]
    simp
  · intro hne hnc hval
    rw [load_mappings_from_lines, if_neg (not_or.mpr ⟨hne, hnc⟩)]
    simp [parse_and_insert_mapping, hval]

/-- Witness for C4's amended theorem: `play` with no parameter is rejected
and aborts the load of a two-line file before the second (valid) line. -/
theorem action_arity_amended_witness :
    (trim "default,1,press,play".toList ≠ []
      ∧ (trim "default,1,press,play".toList).getD 0 ' ' ≠ '#'
      ∧ validate_line (trim "default,1,press,play".toList) "/sdcard" = none)
    ∧ load_mappings_from_lines "/sdcard" ⟨[], 0⟩
        ["default,1,press,play".toList, "default,2,press,stop".toList] = .error () :=
  ⟨by decide,
   (action_arity_amended "/sdcard" [] [] ⟨[], 0⟩
      "default,1,press,play".toList ["default,2,press,stop".toList]).2.2.2
     (by decide) (by decide) (by decide)⟩

/-- A concrete playing player state. -/
def playerStPlaying : PlayerSt :=
  { stream := some "x.wav", amp := true, last_frame_rate := 48000,
    last_bit_depth := 16, last_channels := 1, current_filename := "x.wav",
    last_progress_tick := 0 }

/-- C5 counterexample: during active playback (stream open on "x.wav", a
successful 480-sample read), an I2S write that fails with
`ESP_ERR_TIMEOUT` makes the player loop CLOSE the stream and emit an Error
event — the stream is not kept open and the write is not retried on the
next loop iteration. -/
theorem i2s_timeout_terminates_stream_cex :
    (player_task_iter playerStPlaying none (.ok, 480) (.timeout, 0) 1).1.stream = none
    ∧ (player_task_iter playerStPlaying none (.ok, 480) (.timeout, 0) 1).2 =
        [.closeProviderStream "x.wav", .setAmp false, .emitError .timeout] := by
  decide

/-- C5 amended: a sink (I2S) write timeout during active playback is
treated like any chunk-transfer error: `send_chunk` logs a warning and
returns the error, and the player task then closes the current stream,
shuts the amplifier down and emits an Error event carrying the timeout
code, leaving the player idle; the write is not retried. -/
theorem i2s_write_timeout_closes_stream (p : PlayerSt) (fn : String)
    (n now : Nat) (hs : p.stream = some fn) (hn : 0 < n) :
    (player_task_iter p none (.ok, n) (.timeout, 0) now).1.stream = none
    ∧ (player_task_iter p none (.ok, n) (.timeout, 0) now).2 =
        [.closeProviderStream fn, .setAmp false, .emitError .timeout] := by
  have hn2 : n ≠ 0 := Nat.pos_iff_ne_zero.mp hn
  simp [player_task_iter, send_chunk, close_stream, hs, hn2]

/-- Witness for C5's amended theorem at the concrete playing state. -/
theorem i2s_write_timeout_closes_stream_witness :
    playerStPlaying.stream = some "x.wav" ∧ 0 < 480
    ∧ (player_task_iter playerStPlaying none (.ok, 480) (.timeout, 0) 7).1.stream = none
    ∧ (player_task_iter playerStPlaying none (.ok, 480) (.timeout, 0) 7).2 =
        [.closeProviderStream "x.wav", .setAmp false, .emitError .timeout] :=
  ⟨rfl, by decide,
   (i2s_write_timeout_closes_stream playerStPlaying "x.wav" 480 7 rfl (by decide)).1,
   (i2s_write_timeout_closes_stream playerStPlaying "x.wav" 480 7 rfl (by decide)).2⟩

/-- C8: a Play command on a busy player first fully releases the existing
stream — the provider close and the Stopped event strictly precede the
provider open of the new file; a Started event is emitted only after a
successful open (never on open failure); and on open failure an Error
event is emitted and the player is left idle (stream `none`) with the
amplifier shut down. -/
theorem play_stops_old_then_starts_new (p : PlayerSt) (fn old : String)
    (openRes : Except EspErr AudioInfo) (cfg_ok : Bool) :
    (p.stream = some old →
      ∃ tl, (cmd_play p fn openRes cfg_ok).2 =
        .closeProviderStream old :: .setAmp true :: .emitStopped ::
          .openProviderStream fn :: tl)
    ∧ (∀ err, openRes = .error err →
        (cmd_play p fn openRes cfg_ok).1.stream = none
        ∧ (cmd_play p fn openRes cfg_ok).1.amp = false
        ∧ PlayerEffect.emitStarted fn ∉ (cmd_play p fn openRes cfg_ok).2
        ∧ PlayerEffect.emitError err ∈ (cmd_play p fn openRes cfg_ok).2)
    ∧ (∀ info, openRes = .ok info →
        ((info.frame_rate = p.last_frame_rate ∧ info.bit_depth = p.last_bit_depth ∧
            info.channels = p.last_channels) ∨ cfg_ok = true) →
        (cmd_play p fn openRes cfg_ok).1.stream = some fn
        ∧ ∃ pre, (cmd_play p fn openRes cfg_ok).2 = pre ++ [.emitStarted fn]) := by
  refine ⟨?_, ?_, ?_⟩
  · intro hs
    cases openRes with
    | error err =>
        exact ⟨[.setAmp false, .emitError err], by
          simp [cmd_play, close_stream, hs]⟩
    | ok info =>
        by_cases hfmt : info.frame_rate = p.last_frame_rate ∧
            info.bit_depth = p.last_bit_depth ∧ info.channels = p.last_channels
        · exact ⟨[.setAmp true, .emitStarted fn], by
            simp [cmd_play, close_stream, configure_stream, hs, hfmt]⟩
        · cases hcfg : cfg_ok with
          | true =>
              exact ⟨[.setAmp true, .emitStarted fn], by
                simp [cmd_play, close_stream, configure_stream, hs, hfmt]⟩
          | false =>
              exact ⟨[.closeProviderStream fn, .setAmp false, .emitError .fail], by
                simp [cmd_play, close_stream, configure_stream, hs, hfmt]⟩
  · intro err hopen
    subst hopen
    cases hs : p.stream with
    | none => simp [cmd_play, close_stream, hs]
    | some old => simp [cmd_play, close_stream, hs]
  · intro info hopen hcond
    subst hopen
    cases hs : p.stream with
    | none =>
        by_cases hfmt : info.frame_rate = p.last_frame_rate ∧
            info.bit_depth = p.last_bit_depth ∧ info.channels = p.last_channels
        · refine ⟨?_, ⟨[.openProviderStream fn, .setAmp true], ?_⟩⟩ <;>
            simp [cmd_play, close_stream, configure_stream, hs, hfmt]
        · have hcfg_true : cfg_ok = true := hcond.resolve_left hfmt
          subst hcfg_true
          refine ⟨?_, ⟨[.openProviderStream fn, .setAmp true], ?_⟩⟩ <;>
            simp [cmd_play, close_stream, configure_stream, hs, hfmt]
    | some old =>
        by_cases hfmt : info.frame_rate = p.last_frame_rate ∧
            info.bit_depth = p.last_bit_depth ∧ info.channels = p.last_channels
        · refine ⟨?_, ⟨[.closeProviderStream old, .setAmp true, .emitStopped,
              .openProviderStream fn, .setAmp true], ?_⟩⟩ <;>
            simp [cmd_play, close_stream, configure_stream, hs, hfmt]
        · have hcfg_true : cfg_ok = true := hcond.resolve_left hfmt
          subst hcfg_true
          refine ⟨?_, ⟨[.closeProviderStream old, .setAmp true, .emitStopped,
              .openProviderStream fn, .setAmp true], ?_⟩⟩ <;>
            simp [cmd_play, close_stream, configure_stream, hs, hfmt]

/-- Witness for C8: Play("y.wav") while "x.wav" is active closes and
reports the old stream before opening the new one, a failed open leaves
the player idle with the amplifier off and no Started event, and a
successful open ends with Started("y.wav"). -/
theorem play_stops_old_then_starts_new_witness :
    (∃ tl, (cmd_play playerStPlaying "y.wav" (.ok ⟨48000, 1, 16, 100⟩) true).2 =
        .closeProviderStream "x.wav" :: .setAmp true :: .emitStopped ::
          .openProviderStream "y.wav" :: tl)
    ∧ ((cmd_play playerStPlaying "y.wav" (.error .notFound) true).1.stream = none
        ∧ (cmd_play playerStPlaying "y.wav" (.error .notFound) true).1.amp = false
        ∧ PlayerEffect.emitStarted "y.wav" ∉
            (cmd_play playerStPlaying "y.wav" (.error .notFound) true).2
        ∧ PlayerEffect.emitError .notFound ∈
            (cmd_play playerStPlaying "y.wav" (.error .notFound) true).2)
    ∧ ((cmd_play playerStPlaying "y.wav" (.ok ⟨48000, 1, 16, 100⟩) true).1.stream =
          some "y.wav"
        ∧ ∃ pre, (cmd_play playerStPlaying "y.wav" (.ok ⟨48000, 1, 16, 100⟩) true).2 =
            pre ++ [.emitStarted "y.wav"]) :=
  ⟨(play_stops_old_then_starts_new playerStPlaying "y.wav" "x.wav"
      (.ok ⟨48000, 1, 16, 100⟩) true).1 rfl,
   (play_stops_old_then_starts_new playerStPlaying "y.wav" "x.wav"
      (.error .notFound) true).2.1 .notFound rfl,
   (play_stops_old_then_starts_new playerStPlaying "y.wav" "x.wav"
      (.ok ⟨48000, 1, 16, 100⟩) true).2.2 ⟨48000, 1, 16, 100⟩ rfl (Or.inr rfl)⟩

/-- C3: evaluating the encoder polling code on the four clockwise
Gray-code steps (00 → 01 → 11 → 10 → 00, each spaced beyond the debounce
interval) emits exactly one event, but that event is
`INPUT_EVENT_ENCODER_ROTATE_CCW`; dually the four counter-clockwise steps
emit exactly one `INPUT_EVENT_ENCODER_ROTATE_CW`.  The emitted direction
label is inverted with respect to the direction documented in the
`encoder_decode_direction` transition table (+1 = CW), so four clockwise
steps do not yield a clockwise rotation event.  An interleaved invalid
transition neither advances nor resets the accumulator: with a both-pin
glitch in the middle, four valid clockwise steps still produce exactly the
single (mislabelled) event. -/
theorem encoder_cw_detent_emits_ccw_event :
    (poll_encoder_run encInit cwDetentSamples).2 = [InputEventType.encoderRotateCCW]
    ∧ (poll_encoder_run encInit ccwDetentSamples).2 = [InputEventType.encoderRotateCW]
    ∧ (poll_encoder_run encInit cwDetentWithGlitchSamples).2 =
        [InputEventType.encoderRotateCCW]
    ∧ (poll_encoder_run encInit (cwDetentWithGlitchSamples.take 3)).1.step_counter = 2 := by
  decide
